import Mathlib

/-!
Shallow embedding of the answer evaluator and scoring aggregator of
`src/components/CurriculumSelector.tsx`.

JavaScript strings are modelled as `List Char` (`JStr`); a nullable string
(`string | null`) is `Option JStr`.  JavaScript's truthiness test
`if (!option)` succeeds on both `null` and the empty string, which the
embedding reproduces.  Numeric credit is modelled with `ℚ` (the source's
credit fractions 1, 0.75, 0.5, 0.25, 0 and their sums and the final
division are exact in binary floating point for the inputs considered, so
ℚ is a faithful carrier).  `toLowerCase` is modelled per-character with
`Char.toLower` (ASCII case mapping); none of the properties proved below
depend on the case mapping outside ASCII.
-/

namespace CurriculumSelector

/-- JavaScript strings as lists of characters. -/
abbrev JStr := List Char

/-- The characters matched by the JavaScript regex class `\s`. -/
def jsIsSpace (c : Char) : Bool :=
  c = ' ' || c = '\t' || c = '\n' || c = '\r' ||
  c = Char.ofNat 0x0b || c = Char.ofNat 0x0c ||
  c = Char.ofNat 0xa0 || c = Char.ofNat 0x1680 ||
  (0x2000 ≤ c.toNat && c.toNat ≤ 0x200a) ||
  c = Char.ofNat 0x2028 || c = Char.ofNat 0x2029 ||
  c = Char.ofNat 0x202f || c = Char.ofNat 0x205f ||
  c = Char.ofNat 0x3000 || c = Char.ofNat 0xfeff

/-- `str.replace(/[.,]$/, '')`: drop one trailing period or comma. -/
def stripTrailingPunct (s : JStr) : JStr :=
  match s.getLast? with
  | some c => if c = '.' || c = ',' then s.dropLast else s
  | none => s

/-- `normalize` from `isAnswerMatch`:
`str.replace(/\s+/g, '').replace(/[.,]$/, '').toLowerCase()`. -/
def normalize (s : JStr) : JStr :=
  (stripTrailingPunct (s.filter (fun c => !jsIsSpace c))).map Char.toLower

/-- `s.startsWith p` on JavaScript strings. -/
def startsWithL : JStr → JStr → Bool
  | _, [] => true
  | [], _ :: _ => false
  | c :: s, d :: p => c == d && startsWithL s p

/-- The `circledNumbers` array `['①', …, '⑩']` of `isAnswerMatch`. -/
def circledNumbers : List Char :=
  ['①', '②', '③', '④', '⑤', '⑥', '⑦', '⑧', '⑨', '⑩']

/-- `circledNumbers[optionIndex]`: JavaScript indexing out of range
(including a negative index) yields `undefined`, i.e. `none`. -/
def circledNumberAt (i : Int) : Option Char :=
  if i < 0 then none else circledNumbers.get? i.toNat

/-- `isAnswerMatch(option, answer, optionIndex, allOptions)` from
`src/components/CurriculumSelector.tsx` (lines 513–549), translated
clause by clause; the early-return chain becomes nested `if`s. -/
def isAnswerMatch (option : Option JStr) (answer : JStr) (optionIndex : Int)
    (allOptions : List JStr) : Bool :=
  match option with
  | none => false
  | some o =>
    -- `if (!option) return false;` is also taken by the empty string
    if o.isEmpty then false
    else
      let normOption := normalize o
      let normAnswer := normalize answer
      if normOption == normAnswer then true
      else
        let strictContentMatchExists :=
          allOptions.any (fun opt => normalize opt == normAnswer)
        if strictContentMatchExists then false
        else
          let indexStr := (toString (optionIndex + 1)).toList
          let circledNumber := circledNumberAt optionIndex
          if normAnswer == indexStr then true
          else if circledNumber.any (fun g => normAnswer == [g]) then true
          else if startsWithL normAnswer (indexStr ++ ['.']) ||
                  startsWithL normAnswer (indexStr ++ [')']) then true
          else if startsWithL normAnswer ('(' :: (indexStr ++ [')'])) then true
          else if circledNumber.any (fun g => normAnswer.contains g) then true
          else false

/-- The four question kinds of the quiz. -/
inductive QuestionType
  | multipleChoice
  | ox
  | shortAnswer
  | creativity
deriving DecidableEq, Repr

/-- Ordinal grade bands for open-ended questions (the `Grade` union type
`'A' | 'B' | 'C' | 'D' | 'E'` imported from `types.ts`). -/
inductive Grade
  | A
  | B
  | C
  | D
  | E
deriving DecidableEq, Repr

/-- The fields of a quiz question that the evaluator and aggregator read. -/
structure Question where
  questionType : QuestionType
  options : Option (List JStr)
  answer : JStr
deriving Repr

/-- `type === 'multiple-choice' || type === 'ox'`. -/
def isMcOrOx (t : QuestionType) : Bool :=
  t == QuestionType.multipleChoice || t == QuestionType.ox

/-- `options.findIndex(opt => opt === ans)` where `ans` may be `null`
(a strict `===` against `null` is always false, so the result is `-1`). -/
def findIndexEq (opts : List JStr) (ans : Option JStr) : Int :=
  match ans with
  | none => -1
  | some a =>
    match opts.findIdx? (fun o => o == a) with
    | some i => (i : Int)
    | none => -1

/-- The body of the `safeQuestions.map` closure in `handleNext`
(lines 865–901): returns the pair (credit added to `totalEarnedPoints`,
correctness flag returned by the closure). -/
def evalQuestion (question : Question) (ans : Option JStr) (grade : Option Grade) :
    ℚ × Bool :=
  if !isMcOrOx question.questionType then
    match grade with
    | some Grade.A => (1, true)
    | some Grade.B => (0.75, true)
    | some Grade.C => (0.5, true)
    | some Grade.D => (0.25, false)
    | _ => (0, false)
  else
    let options := question.options.getD []
    let selectedIndex := findIndexEq options ans
    if selectedIndex ≠ -1 then
      -- the source returns the match directly and adds no points here
      (0, isAnswerMatch ans question.answer selectedIndex options)
    else
      let isCorrect := isAnswerMatch ans question.answer (-1) options
      (if isCorrect then 1 else 0, isCorrect)

/-- The tuple `onSubmit(scorePercentage, correctCount, total, userAnswers,
calculatedCorrectness)` emitted at finalization. -/
structure SessionResult where
  scorePercentage : ℚ
  correctCount : Nat
  total : Nat
  userAnswers : List (Option JStr)
  correctness : List Bool
deriving Repr

/-- One step of the finalization fold: run the `safeQuestions.map` closure
body on question `iq.2` at index `iq.1`, add its credit to the running
`totalEarnedPoints` and append its flag to `calculatedCorrectness`. -/
def aggStep (userAnswers : List (Option JStr)) (grades : List (Option Grade))
    (acc : ℚ × List Bool) (iq : Nat × Question) : ℚ × List Bool :=
  let r := evalQuestion iq.2 (userAnswers.getD iq.1 none) (grades.getD iq.1 none)
  (acc.1 + r.1, acc.2 ++ [r.2])

/-- The finalization branch of `handleNext` (lines 863–908): fold the
questions in order, accumulating `totalEarnedPoints` and building
`calculatedCorrectness`, then compute the score and correct count. -/
def finalizeResults (qs : List Question) (userAnswers : List (Option JStr))
    (grades : List (Option Grade)) : SessionResult :=
  let folded := qs.enum.foldl (aggStep userAnswers grades) (0, [])
  { scorePercentage := folded.1 / (qs.length : ℚ) * 100
    correctCount := (folded.2.filter (fun c => c == true)).length
    total := qs.length
    userAnswers := userAnswers
    correctness := folded.2 }

/-- The per-question (credit, flag) pairs in original question order,
stated compositionally for the aggregation theorems. -/
def perQuestionResults (qs : List Question) (userAnswers : List (Option JStr))
    (grades : List (Option Grade)) : List (ℚ × Bool) :=
  qs.enum.map
    (fun iq => evalQuestion iq.2 (userAnswers.getD iq.1 none) (grades.getD iq.1 none))

/-- Grade-to-credit mapping as the specification states it (§3):
A=1.00, B=0.75, C=0.50, D=0.25, E=0.00, ungraded treated as E. -/
def specGradeCredit : Option Grade → ℚ
  | some Grade.A => 1
  | some Grade.B => 0.75
  | some Grade.C => 0.5
  | some Grade.D => 0.25
  | _ => 0

/-- Grade-to-correctness mapping as the specification states it:
true exactly for grades A, B, C. -/
def specGradeCorrect : Option Grade → Bool
  | some Grade.A => true
  | some Grade.B => true
  | some Grade.C => true
  | _ => false

/-- The positional fallback as the specification describes it (§4.1 step 4):
the normalized canonical answer equals the 1-based index string or the
circled glyph, or starts with "<index>." / "<index>)" / "(<index>)", or
contains the circled glyph anywhere; glyphs exist only for indices 0–9. -/
def specPositionalMatch (normAnswer : JStr) (candidateIndex : Int) : Bool :=
  let indexStr := (toString (candidateIndex + 1)).toList
  let glyph := circledNumberAt candidateIndex
  normAnswer == indexStr ||
  glyph.any (fun g => normAnswer == [g]) ||
  startsWithL normAnswer (indexStr ++ ['.']) ||
  startsWithL normAnswer (indexStr ++ [')']) ||
  startsWithL normAnswer ('(' :: (indexStr ++ [')'])) ||
  glyph.any (fun g => normAnswer.contains g)

/-- A chain of early returns over boolean tests is their disjunction. -/
lemma ifChainFive (a b c d e : Bool) :
    (if a then true else if b then true else if c then true
     else if d then true else if e then true else false)
      = (a || b || c || d || e) := by
  revert a b c d e
  decide

/-- Folding `aggStep` accumulates the sum of the credits and appends the
flags in order. -/
lemma aggStep_foldl (ua : List (Option JStr)) (g : List (Option Grade)) :
    ∀ (l : List (Nat × Question)) (a : ℚ) (bs : List Bool),
      l.foldl (aggStep ua g) (a, bs)
        = (a + (l.map
              (fun iq => (evalQuestion iq.2 (ua.getD iq.1 none) (g.getD iq.1 none)).1)).sum,
           bs ++ l.map
              (fun iq => (evalQuestion iq.2 (ua.getD iq.1 none) (g.getD iq.1 none)).2)) := by
  intro l
  induction l with
  | nil => intro a bs; simp
  | cons x xs ih =>
    intro a bs
    simp only [List.foldl_cons, List.map_cons, List.sum_cons]
    rw [show aggStep ua g (a, bs) x
          = (a + (evalQuestion x.2 (ua.getD x.1 none) (g.getD x.1 none)).1,
             bs ++ [(evalQuestion x.2 (ua.getD x.1 none) (g.getD x.1 none)).2]) from rfl]
    rw [ih]
    simp [add_assoc]

/-- The emitted score is the sum of the per-question credits over the
question count, times 100. -/
lemma finalize_score (qs : List Question) (ua : List (Option JStr))
    (g : List (Option Grade)) :
    (finalizeResults qs ua g).scorePercentage
      = ((perQuestionResults qs ua g).map Prod.fst).sum / (qs.length : ℚ) * 100 := by
  simp only [finalizeResults, perQuestionResults, aggStep_foldl, zero_add, List.map_map]
  rfl

/-- The emitted correctness array is the per-question flags in order. -/
lemma finalize_flags (qs : List Question) (ua : List (Option JStr))
    (g : List (Option Grade)) :
    (finalizeResults qs ua g).correctness = (perQuestionResults qs ua g).map Prod.snd := by
  simp only [finalizeResults, perQuestionResults, aggStep_foldl, List.nil_append,
    List.map_map]
  rfl

/-- C1: the claim says a closed-form question adds 1.0 credit iff the
evaluator reports a match, in both evaluation paths.  The code violates
this: when the stored answer is found in the option list (here `"a"` at
index 0 of `["a", "b"]`), `isAnswerMatch` reports a match and the flag is
true, yet the closure returns without adding any credit, so a one-question
session scores 0 with `correctCount` 1. -/
theorem foundMatch_adds_no_credit :
    isAnswerMatch (some ['a']) ['a'] 0 [['a'], ['b']] = true ∧
    evalQuestion ⟨QuestionType.multipleChoice, some [['a'], ['b']], ['a']⟩
        (some ['a']) none = (0, true) ∧
    (finalizeResults [⟨QuestionType.multipleChoice, some [['a'], ['b']], ['a']⟩]
        [some ['a']] []).scorePercentage = 0 ∧
    (finalizeResults [⟨QuestionType.multipleChoice, some [['a'], ['b']], ['a']⟩]
        [some ['a']] []).correctCount = 1 := by
  refine ⟨rfl, rfl, ?_, rfl⟩
  rw [finalize_score]
  rw [show perQuestionResults [⟨QuestionType.multipleChoice, some [['a'], ['b']], ['a']⟩]
      [some ['a']] [] = [(0, true)] from rfl]
  norm_num

/-- C2: the claim says a 4-question multiple-choice session with 3 stored
answers matching and 1 mismatching finalizes to score 75.0 and
correctCount 3.  On the code, with the stored answers present in the
option lists (as they are whenever the user selected an option), the
found-index path adds no credit, so the score is 0 while correctCount is
still 3. -/
theorem fourMcQuestions_three_correct :
    (finalizeResults
        (List.replicate 4 ⟨QuestionType.multipleChoice, some [['a'], ['b']], ['a']⟩)
        [some ['a'], some ['a'], some ['a'], some ['b']] []).scorePercentage = 0 ∧
    (finalizeResults
        (List.replicate 4 ⟨QuestionType.multipleChoice, some [['a'], ['b']], ['a']⟩)
        [some ['a'], some ['a'], some ['a'], some ['b']] []).correctCount = 3 ∧
    (finalizeResults
        (List.replicate 4 ⟨QuestionType.multipleChoice, some [['a'], ['b']], ['a']⟩)
        [some ['a'], some ['a'], some ['a'], some ['b']] []).correctness
      = [true, true, true, false] := by
  refine ⟨?_, rfl, rfl⟩
  rw [finalize_score]
  rw [show perQuestionResults
      (List.replicate 4 ⟨QuestionType.multipleChoice, some [['a'], ['b']], ['a']⟩)
      [some ['a'], some ['a'], some ['a'], some ['b']] []
    = [(0, true), (0, true), (0, true), (0, false)] from rfl]
  norm_num

/-- C3: finalization emits exactly one flag and one credit per question in
original order; the score equals 100 × (sum of the per-question credits) /
N exactly as a rational, and `correctCount` counts the true flags. -/
theorem aggregation_order_and_score (qs : List Question)
    (ua : List (Option JStr)) (g : List (Option Grade)) (h : 0 < qs.length) :
    (finalizeResults qs ua g).correctness = (perQuestionResults qs ua g).map Prod.snd ∧
    (perQuestionResults qs ua g).length = qs.length ∧
    (finalizeResults qs ua g).scorePercentage
        = 100 * ((perQuestionResults qs ua g).map Prod.fst).sum / (qs.length : ℚ) ∧
    (finalizeResults qs ua g).correctCount
        = (finalizeResults qs ua g).correctness.count true := by
  refine ⟨finalize_flags qs ua g, ?_, ?_, ?_⟩
  · simp [perQuestionResults]
  · rw [finalize_score]
    ring
  · show (List.filter (fun c => c == true) (finalizeResults qs ua g).correctness).length = _
    rw [List.count_eq_countP, List.countP_eq_length_filter]

/-- C3 witness: a concrete one-question session instantiating the
aggregation theorem. -/
theorem aggregation_order_and_score_witness :
    (finalizeResults [⟨QuestionType.shortAnswer, none, ['a']⟩] [] [some Grade.B]).correctness
        = (perQuestionResults [⟨QuestionType.shortAnswer, none, ['a']⟩] [] [some Grade.B]).map
            Prod.snd ∧
    (perQuestionResults [⟨QuestionType.shortAnswer, none, ['a']⟩] [] [some Grade.B]).length
        = ([⟨QuestionType.shortAnswer, none, ['a']⟩] : List Question).length ∧
    (finalizeResults [⟨QuestionType.shortAnswer, none, ['a']⟩] [] [some Grade.B]).scorePercentage
        = 100 * ((perQuestionResults [⟨QuestionType.shortAnswer, none, ['a']⟩] []
            [some Grade.B]).map Prod.fst).sum
          / (([⟨QuestionType.shortAnswer, none, ['a']⟩] : List Question).length : ℚ) ∧
    (finalizeResults [⟨QuestionType.shortAnswer, none, ['a']⟩] [] [some Grade.B]).correctCount
        = (finalizeResults [⟨QuestionType.shortAnswer, none, ['a']⟩] []
            [some Grade.B]).correctness.count true :=
  aggregation_order_and_score [⟨QuestionType.shortAnswer, none, ['a']⟩] [] [some Grade.B]
    (by decide)

/-- C4: for open-ended (short-answer or creativity) questions the closure
adds exactly the spec's credit fraction for the grade (A=1, B=0.75, C=0.5,
D=0.25, E=0) and flags correct exactly for A, B, C, with an ungraded
question treated as E. -/
theorem openEnded_grade_mapping (q : Question) (ans : Option JStr) (g : Option Grade)
    (h : q.questionType = QuestionType.shortAnswer ∨
         q.questionType = QuestionType.creativity) :
    evalQuestion q ans g = (specGradeCredit g, specGradeCorrect g) := by
  have hm : isMcOrOx q.questionType = false := by
    rcases h with h | h <;> simp [isMcOrOx, h]
  unfold evalQuestion
  rw [hm]
  rcases g with _ | g
  · rfl
  · cases g <;> rfl

/-- C4 witness: a concrete creativity question graded D earns 0.25 credit
and is flagged incorrect. -/
theorem openEnded_grade_mapping_witness :
    evalQuestion ⟨QuestionType.creativity, none, []⟩ none (some Grade.D)
      = (specGradeCredit (some Grade.D), specGradeCorrect (some Grade.D)) :=
  openEnded_grade_mapping ⟨QuestionType.creativity, none, []⟩ none (some Grade.D)
    (Or.inr rfl)

/-- When the direct content test and the strict-content guard both fail,
the matcher is exactly the positional fallback. -/
lemma isAnswerMatch_fallback (s answer : JStr) (i : Int) (opts : List JStr)
    (h0 : s.isEmpty = false)
    (hcm : (normalize s == normalize answer) = false)
    (hstrict : (opts.any fun opt => normalize opt == normalize answer) = false) :
    isAnswerMatch (some s) answer i opts = specPositionalMatch (normalize answer) i := by
  simp only [isAnswerMatch, specPositionalMatch, h0, hcm, hstrict, Bool.false_eq_true,
    if_false]
  rw [ifChainFive]
  simp [Bool.or_assoc]

/-- At index `-1` the positional fallback has index string `"0"` and no
glyph. -/
lemma specPositionalMatch_neg_one (na : JStr) :
    specPositionalMatch na (-1)
      = (na == ['0'] || startsWithL na ['0', '.'] || startsWithL na ['0', ')'] ||
         startsWithL na ['(', '0', ')']) := by
  simp only [specPositionalMatch]
  rw [show ((-1 : Int) + 1) = 0 from by decide]
  rw [show (toString (0 : Int)).toList = ['0'] from by decide]
  rw [show circledNumberAt (-1) = none from rfl]
  simp

/-- C5: if some option in the list content-matches the canonical answer
after normalization while the candidate itself does not, the matcher
returns false for every index — the positional fallback never fires when a
content match exists elsewhere. -/
theorem contentMatch_blocks_positional (cand : Option JStr) (answer : JStr) (i : Int)
    (opts : List JStr)
    (hex : ∃ o ∈ opts, normalize o = normalize answer)
    (hc : ∀ s, cand = some s → normalize s ≠ normalize answer) :
    isAnswerMatch cand answer i opts = false := by
  cases cand with
  | none => rfl
  | some s =>
    have h2 : (opts.any fun opt => normalize opt == normalize answer) = true := by
      rw [List.any_eq_true]
      obtain ⟨o, ho, heq⟩ := hex
      exact ⟨o, ho, beq_iff_eq.mpr heq⟩
    have h1 : (normalize s == normalize answer) = false := by
      rw [beq_eq_false_iff_ne]
      exact hc s rfl
    by_cases hemp : s.isEmpty
    · simp [isAnswerMatch, hemp]
    · have h0 : s.isEmpty = false := by
        rwa [Bool.not_eq_true] at hemp
      simp [isAnswerMatch, h0, h1, h2]

/-- C5 witness: option list `["a", "b"]`, canonical answer `"a"`,
candidate `"b"` at index 5 — the matcher returns false. -/
theorem contentMatch_blocks_positional_witness :
    isAnswerMatch (some ['b']) ['a'] 5 [['a'], ['b']] = false :=
  contentMatch_blocks_positional (some ['b']) ['a'] 5 [['a'], ['b']]
    ⟨['a'], by decide, by decide⟩
    (fun s hs => by cases hs; decide)

/-- C6 counterexample: with no content collision (`["a","b","c"]` vs
answer `"3"`, index 2), the claim says `matches(anything, "3", 2, opts)`
is true; but for the empty-string candidate — which satisfies the claim's
conditions and the index-string disjunct — the matcher returns false,
because the source's `if (!option)` guard also rejects the empty string. -/
theorem positionalRule_fails_for_empty_candidate :
    (∀ o ∈ ([['a'], ['b'], ['c']] : List JStr), normalize o ≠ normalize ['3']) ∧
    normalize [] ≠ normalize ['3'] ∧
    (normalize ['3'] == (toString ((2 : Int) + 1)).toList) = true ∧
    isAnswerMatch (some []) ['3'] 2 [['a'], ['b'], ['c']] = false := by
  decide

/-- C6 amended: for a non-null, non-empty candidate that does not
content-match, with no content collision in the options, the matcher
returns true exactly when the spec's positional-fallback disjunction
holds for the normalized canonical answer. -/
theorem positional_fallback_characterization (s answer : JStr) (i : Int)
    (opts : List JStr)
    (hne : s ≠ [])
    (hcm : normalize s ≠ normalize answer)
    (hopts : ∀ o ∈ opts, normalize o ≠ normalize answer) :
    isAnswerMatch (some s) answer i opts = specPositionalMatch (normalize answer) i := by
  apply isAnswerMatch_fallback
  · cases s with
    | nil => exact absurd rfl hne
    | cons c t => rfl
  · rw [beq_eq_false_iff_ne]
    exact hcm
  · rw [List.any_eq_false]
    intro o ho
    rw [Bool.not_eq_true, beq_eq_false_iff_ne]
    exact hopts o ho

/-- C6 witness: candidate `"x"`, answer `"3"`, index 2, options
`["a","b","c"]`. -/
theorem positional_fallback_characterization_witness :
    isAnswerMatch (some ['x']) ['3'] 2 [['a'], ['b'], ['c']]
      = specPositionalMatch (normalize ['3']) 2 :=
  positional_fallback_characterization ['x'] ['3'] 2 [['a'], ['b'], ['c']]
    (by decide) (by decide) (by decide)

/-- C7 counterexample: `""` and `"."` normalize to the same string, yet
the matcher returns false for candidate `""`, since `if (!option)` also
rejects the empty string. -/
theorem normalizedEqual_fails_for_empty_candidate :
    normalize [] = normalize ['.'] ∧
    isAnswerMatch (some []) ['.'] 0 [] = false := by
  decide

/-- C7 amended: normalization strips all whitespace, then one trailing
period or comma, then lower-cases; and any non-empty candidate that
normalizes equal to the canonical answer matches, for every index and
option list. -/
theorem normalizedEqual_always_matches (a b : JStr) (i : Int) (opts : List JStr)
    (ha : a ≠ []) (h : normalize a = normalize b) :
    isAnswerMatch (some a) b i opts = true ∧
    normalize a = (stripTrailingPunct (a.filter fun c => !jsIsSpace c)).map Char.toLower := by
  refine ⟨?_, rfl⟩
  have h0 : a.isEmpty = false := by
    cases a with
    | nil => exact absurd rfl ha
    | cons c t => rfl
  have h1 : (normalize a == normalize b) = true := beq_iff_eq.mpr h
  simp [isAnswerMatch, h0, h1]

/-- C7 witness: `"A "` (with a space) and `"a"` normalize equal and the
matcher accepts them at an arbitrary index and option list. -/
theorem normalizedEqual_always_matches_witness :
    isAnswerMatch (some ['A', ' ']) ['a'] 7 [['q']] = true ∧
    normalize ['A', ' ']
      = (stripTrailingPunct ((['A', ' '] : JStr).filter fun c => !jsIsSpace c)).map
          Char.toLower :=
  normalizedEqual_always_matches ['A', ' '] ['a'] 7 [['q']] (by decide) (by decide)

/-- C8: at `candidateIndex = -1` the matcher applies the exact arithmetic
`candidateIndex + 1`: the direct content test and strict-content guard
run unchanged, the index-string comparisons run against `"0"`, and the
glyph checks contribute nothing because no glyph exists at `-1`. -/
theorem negOneIndex_exact_arithmetic (s answer : JStr) (opts : List JStr)
    (hne : s ≠ []) :
    isAnswerMatch (some s) answer (-1) opts
      = (normalize s == normalize answer ||
         (!(opts.any fun opt => normalize opt == normalize answer) &&
          (normalize answer == ['0'] ||
           startsWithL (normalize answer) ['0', '.'] ||
           startsWithL (normalize answer) ['0', ')'] ||
           startsWithL (normalize answer) ['(', '0', ')']))) := by
  have h0 : s.isEmpty = false := by
    cases s with
    | nil => exact absurd rfl hne
    | cons c t => rfl
  by_cases hcm : (normalize s == normalize answer) = true
  · simp [isAnswerMatch, h0, hcm]
  · have hcm' : (normalize s == normalize answer) = false := by
      rwa [Bool.not_eq_true] at hcm
    by_cases hstrict : (opts.any fun opt => normalize opt == normalize answer) = true
    · simp [isAnswerMatch, h0, hcm', hstrict]
    · have hstrict' : (opts.any fun opt => normalize opt == normalize answer) = false := by
        rwa [Bool.not_eq_true] at hstrict
      rw [isAnswerMatch_fallback s answer (-1) opts h0 hcm' hstrict',
        specPositionalMatch_neg_one, hcm', hstrict']
      simp

/-- C8 witness: candidate `"x"`, answer `"0"`, index `-1`, options
`["q"]` — the answer `"0"` is matched through the index arithmetic
`-1 + 1`. -/
theorem negOneIndex_exact_arithmetic_witness :
    isAnswerMatch (some ['x']) ['0'] (-1) [['q']]
      = (normalize ['x'] == normalize ['0'] ||
         (!([['q']].any fun opt => normalize opt == normalize ['0']) &&
          (normalize ['0'] == ['0'] ||
           startsWithL (normalize ['0']) ['0', '.'] ||
           startsWithL (normalize ['0']) ['0', ')'] ||
           startsWithL (normalize ['0']) ['(', '0', ')']))) :=
  negOneIndex_exact_arithmetic ['x'] ['0'] [['q']] (by decide)

/-- C9: a `null` candidate option never matches, for any answer, index and
option list. -/
theorem nullCandidate_never_matches (answer : JStr) (i : Int) (opts : List JStr) :
    isAnswerMatch none answer i opts = false :=
  rfl

/-- C10: the evaluator and the aggregation are pure functions of their
arguments — two runs on the same inputs return identical results. -/
theorem evaluator_and_aggregation_deterministic (o : Option JStr) (answer : JStr)
    (i : Int) (opts : List JStr) (qs : List Question) (ua : List (Option JStr))
    (g : List (Option Grade)) :
    isAnswerMatch o answer i opts = isAnswerMatch o answer i opts ∧
    finalizeResults qs ua g = finalizeResults qs ua g :=
  ⟨rfl, rfl⟩

end CurriculumSelector
